import Mathlib

/-!
Verification of the document-bot core against its specification.

The definitions below are a shallow embedding of the Python sources:
`utils.py` (file validation, date parsing helpers, keyboard/pagination
builders), `handlers/documents.py` (the upload conversation handlers and
the callback router patterns), `database.py` (the reminder ledger and
`delete_document`), and `jobs.py` (`send_reminders`).  Strings are
modelled as `List Char`, `datetime.date` as a `Date` triple, SQLite
tables as Lean lists, and the Telegram side effects as returned values.
-/

namespace DocumentBot

/-! ## Generic list/string helpers -/

/-- Model of `a.startswith(b)` / regex prefix anchoring on character lists. -/
def isPre : List Char → List Char → Bool
  | [], _ => true
  | _ :: _, [] => false
  | a :: as, b :: bs => if a = b then isPre as bs else false

/-- Model of Python `str.split("|")`. -/
def splitOnPipe : List Char → List (List Char)
  | [] => [[]]
  | c :: rest =>
    match splitOnPipe rest with
    | [] => [[]]
    | g :: gs => if c = '|' then [] :: g :: gs else (c :: g) :: gs

/-- Model of Python `str.strip()`. -/
def pstrip (s : List Char) : List Char :=
  ((s.dropWhile Char.isWhitespace).reverse.dropWhile Char.isWhitespace).reverse

theorem isPre_append_self (l t : List Char) : isPre l (l ++ t) = true := by
  induction l with
  | nil => rfl
  | cons a as ih => simp [isPre, ih]

theorem isPre_append_of_le_length (pat l t : List Char) (h : pat.length ≤ l.length) :
    isPre pat (l ++ t) = isPre pat l := by
  induction pat generalizing l with
  | nil => rfl
  | cons a as ih =>
    cases l with
    | nil => simp at h
    | cons b bs =>
      simp only [List.cons_append, isPre]
      by_cases hab : a = b
      · simp only [hab, if_pos rfl]
        exact ih bs (by simpa using h)
      · simp [hab]

/-! ## Calendar dates

`datetime.date` is modelled as a year/month/day triple; adding a
`timedelta(days = n)` is modelled as `n` successive next-day steps. -/

structure Date where
  year : Nat
  month : Nat
  day : Nat
deriving DecidableEq, Repr

def isLeapYear (y : Nat) : Bool :=
  (y % 4 == 0 && y % 100 != 0) || y % 400 == 0

def daysInMonth (y m : Nat) : Nat :=
  if m = 2 then (if isLeapYear y then 29 else 28)
  else if m = 4 ∨ m = 6 ∨ m = 9 ∨ m = 11 then 30
  else 31

def nextDay : Date → Date
  | ⟨y, m, d⟩ =>
    if d < daysInMonth y m then ⟨y, m, d + 1⟩
    else if m < 12 then ⟨y, m + 1, 1⟩
    else ⟨y + 1, 1, 1⟩

/-- Model of `date + timedelta(days = n)` for `n ≥ 0`. -/
def addDays (dt : Date) (n : Nat) : Date :=
  Nat.iterate nextDay n dt

/-! ## `datetime.strptime` for the three manual-entry formats

CPython compiles `%d`, `%m` and `%Y` to the regex alternations
`3[01]|[12]\d|0[1-9]|[1-9]`, `1[0-2]|0[1-9]|[1-9]` and `\d\d\d\d`, kept
here as priority-ordered candidate lists (two-digit alternatives before
the one-digit one); the whole input must be consumed, and the matched
numbers must then form a valid `datetime.date`. -/

def digitVal (c : Char) : Option Nat :=
  if c.isDigit then some (c.toNat - 48) else none

/-- Candidate matches for `%d`, in regex-alternation priority order. -/
def dayAlts : List Char → List (Nat × List Char)
  | [] => []
  | [c] =>
    match digitVal c with
    | some a => if 1 ≤ a then [(a, [])] else []
    | none => []
  | c1 :: c2 :: rest =>
    match digitVal c1, digitVal c2 with
    | some a, some b =>
      let two := 10 * a + b
      (if 1 ≤ two ∧ two ≤ 31 then [(two, rest)] else []) ++
        (if 1 ≤ a then [(a, c2 :: rest)] else [])
    | some a, none => if 1 ≤ a then [(a, c2 :: rest)] else []
    | none, _ => []

/-- Candidate matches for `%m`, in regex-alternation priority order. -/
def monthAlts : List Char → List (Nat × List Char)
  | [] => []
  | [c] =>
    match digitVal c with
    | some a => if 1 ≤ a then [(a, [])] else []
    | none => []
  | c1 :: c2 :: rest =>
    match digitVal c1, digitVal c2 with
    | some a, some b =>
      let two := 10 * a + b
      (if 1 ≤ two ∧ two ≤ 12 then [(two, rest)] else []) ++
        (if 1 ≤ a then [(a, c2 :: rest)] else [])
    | some a, none => if 1 ≤ a then [(a, c2 :: rest)] else []
    | none, _ => []

/-- `%Y`: exactly four digits. -/
def yearMatch : List Char → Option (Nat × List Char)
  | c1 :: c2 :: c3 :: c4 :: rest =>
    match digitVal c1, digitVal c2, digitVal c3, digitVal c4 with
    | some a, some b, some c, some d => some (1000 * a + 100 * b + 10 * c + d, rest)
    | _, _, _, _ => none
  | _ => none

/-- Validation done by the `datetime.date` constructor. -/
def mkValidDate (y m d : Nat) : Option Date :=
  if 1 ≤ y ∧ y ≤ 9999 ∧ 1 ≤ m ∧ m ≤ 12 ∧ 1 ≤ d ∧ d ≤ daysInMonth y m then
    some ⟨y, m, d⟩
  else none

def matchDMYTail (sep : Char) (d : Nat) (s : List Char) : Option (Nat × Nat × Nat) :=
  match s with
  | c :: rest =>
    if c = sep then
      (monthAlts rest).findSome? fun mr =>
        match mr.2 with
        | c2 :: r3 =>
          if c2 = sep then
            match yearMatch r3 with
            | some (y, []) => some (d, mr.1, y)
            | _ => none
          else none
        | [] => none
    else none
  | [] => none

/-- Full match of `%d<sep>%m<sep>%Y` against the whole input. -/
def matchDMY (sep : Char) (s : List Char) : Option (Nat × Nat × Nat) :=
  (dayAlts s).findSome? fun dr => matchDMYTail sep dr.1 dr.2

/-- Full match of `%Y-%m-%d` against the whole input. -/
def matchYMD (s : List Char) : Option (Nat × Nat × Nat) :=
  match yearMatch s with
  | some (y, c :: rest) =>
    if c = '-' then
      (monthAlts rest).findSome? fun mr =>
        match mr.2 with
        | c2 :: r3 =>
          if c2 = '-' then
            (dayAlts r3).findSome? fun dr =>
              if dr.2 = [] then some (dr.1, mr.1, y) else none
          else none
        | [] => none
    else none
  | _ => none

/-- `datetime.strptime(s, "%d.%m.%Y")` (resp. `"%d/%m/%Y"`) followed by
`.date()`, returning `none` where Python raises `ValueError`. -/
def strptimeDMY (sep : Char) (s : List Char) : Option Date :=
  match matchDMY sep s with
  | some (d, m, y) => mkValidDate y m d
  | none => none

/-- `datetime.strptime(s, "%Y-%m-%d").date()`. -/
def strptimeYMD (s : List Char) : Option Date :=
  match matchYMD s with
  | some (d, m, y) => mkValidDate y m d
  | none => none

/-- The manual-entry parse loop of `upload_start_date_manual` /
`upload_end_date_manual`: the formats `"%d.%m.%Y"`, `"%d/%m/%Y"`,
`"%Y-%m-%d"` are tried in order and the first success wins. -/
def parseManualDate (s : List Char) : Option Date :=
  match strptimeDMY '.' s with
  | some dt => some dt
  | none =>
    match strptimeDMY '/' s with
    | some dt => some dt
    | none => strptimeYMD s

/-! ## File validation (`utils.validate_file`, `utils.get_file_type`) -/

def lowerStr (s : List Char) : List Char := s.map Char.toLower

/-- Index of the last `'.'` in the name, if any. -/
def lastDotIdx (s : List Char) : Option Nat :=
  (List.range s.length).reverse.find? fun i => s.getD i ' ' = '.'

/-- Model of `os.path.splitext` for a plain file name (no path
separators): the extension starts at the last dot, unless every
character before it is itself a dot. -/
def splitExt (s : List Char) : List Char × List Char :=
  match lastDotIdx s with
  | none => (s, [])
  | some i =>
    if (s.take i).all (fun c => c = '.') then (s, [])
    else (s.take i, s.drop i)

/-- `utils.validate_file` (returning only the boolean component). -/
def validateFile (fileName : List Char) (fileSize : Nat)
    (allowedExts : List (List Char)) (maxFileSize : Nat) : Bool :=
  if fileName = [] then false
  else
    let ext := (splitExt (lowerStr fileName)).2
    if ¬ ext ∈ allowedExts then false
    else if fileSize > maxFileSize then false
    else true

/-- The extension→kind table of `utils.get_file_type`. -/
def typeMapping : List (List (List Char) × List Char) :=
  [([".pdf".data], "pdf".data),
   ([".doc".data, ".docx".data, ".odt".data, ".rtf".data], "document".data),
   ([".xls".data, ".xlsx".data, ".ods".data], "spreadsheet".data),
   ([".ppt".data, ".pptx".data, ".odp".data], "presentation".data),
   ([".jpg".data, ".jpeg".data, ".png".data, ".gif".data, ".webp".data], "image".data),
   ([".zip".data, ".rar".data, ".7z".data], "archive".data),
   ([".txt".data], "text".data)]

def getFileType (fileName : List Char) : List Char :=
  if fileName = [] then "unknown".data
  else
    let ext := (splitExt (lowerStr fileName)).2
    match typeMapping.find? fun em => ext ∈ em.1 with
    | some em => em.2
    | none => "other".data

/-! ## Conversation data model

`context.user_data["upload"]` is the per-user draft; the
`UploadStates` enum plus `ConversationHandler.END` is the state set. -/

inductive UpState where
  | waitingName
  | waitingStartDate
  | waitingEndDate
  | waitingTemplate
  | ended
deriving DecidableEq, Repr

structure Draft where
  fileId : List Char
  fileName : Option (List Char) := none
  fileType : List Char := []
  name : Option (List Char) := none
  startDate : Option Date := none
  endDate : Option Date := none
  templateId : Option Nat := none
  waitingManualStart : Bool := false
  waitingManualEnd : Bool := false
deriving DecidableEq, Repr

structure Template where
  id : Nat
  name : List Char
  documentsCount : Nat
deriving DecidableEq, Repr

/-- The arguments handed to `database.insert_document`. -/
structure InsertedDoc where
  userId : Nat
  name : List Char
  fileId : List Char
  fileName : Option (List Char)
  fileType : List Char
  startDate : Option Date
  endDate : Option Date
  templateId : Option Nat
deriving DecidableEq, Repr

/-- Observable result of one conversation turn: the draft left in the
session store, the returned conversation state, and the document
inserted into the store, if any. -/
structure StepOut where
  draft : Option Draft
  state : UpState
  savedDoc : Option InsertedDoc
deriving DecidableEq, Repr

def stay (st : UpState) (d : Draft) : StepOut :=
  { draft := some d, state := st, savedDoc := none }

def insertDocumentArgs (userId : Nat) (d : Draft) : InsertedDoc :=
  { userId := userId
    name := d.name.getD "Без названия".data
    fileId := d.fileId
    fileName := d.fileName
    fileType := d.fileType
    startDate := d.startDate
    endDate := d.endDate
    templateId := d.templateId }

/-- `save_document_from_callback`: with a falsy `file_id` it only
reports an error (leaving the draft), otherwise it inserts the
document, clears the draft and ends the conversation. -/
def saveDocumentFromCallback (userId : Nat) (d : Draft) : StepOut :=
  if d.fileId = [] then { draft := some d, state := .ended, savedDoc := none }
  else { draft := none, state := .ended, savedDoc := some (insertDocumentArgs userId d) }

/-- `save_document` (text-message variant); same store effect. -/
def saveDocument (userId : Nat) (d : Draft) : StepOut :=
  if d.fileId = [] then { draft := some d, state := .ended, savedDoc := none }
  else { draft := none, state := .ended, savedDoc := some (insertDocumentArgs userId d) }

/-- `show_template_selection`: with no templates the document is saved
at once, otherwise the conversation moves to the template state. -/
def showTemplateSelection (userId : Nat) (templates : List Template) (d : Draft) : StepOut :=
  if templates = [] then saveDocumentFromCallback userId d
  else { draft := some d, state := .waitingTemplate, savedDoc := none }

/-! ## Conversation handlers -/

/-- `upload_name`: strip, reject names shorter than 2, silently
truncate to 100 characters, store and advance. -/
def uploadName (text : List Char) (d : Draft) : StepOut :=
  let name := pstrip text
  if name.length < 2 then stay .waitingName d
  else
    let name2 := if name.length > 100 then name.take 100 else name
    { draft := some { d with name := some name2 }, state := .waitingStartDate, savedDoc := none }

def startDateChosen (d : Draft) (dt : Date) : StepOut :=
  { draft := some { d with startDate := some dt }, state := .waitingEndDate, savedDoc := none }

/-- `upload_start_date_callback`: quick options are fixed day offsets
from today, `manual` sets the awaiting-manual flag. -/
def uploadStartDateCallback (data : List Char) (today : Date) (d : Draft) : StepOut :=
  let parts := splitOnPipe data
  if parts.length < 2 then stay .waitingStartDate d
  else
    let opt := parts.getD 1 []
    if opt = "today".data then startDateChosen d today
    else if opt = "+1m".data then startDateChosen d (addDays today 30)
    else if opt = "+3m".data then startDateChosen d (addDays today 90)
    else if opt = "+6m".data then startDateChosen d (addDays today 180)
    else if opt = "+1y".data then startDateChosen d (addDays today 365)
    else if opt = "+2y".data then startDateChosen d (addDays today 730)
    else if opt = "+5y".data then startDateChosen d (addDays today 1825)
    else if opt = "manual".data then
      { draft := some { d with waitingManualStart := true }, state := .waitingStartDate,
        savedDoc := none }
    else stay .waitingStartDate d

/-- `upload_start_date_manual`. -/
def uploadStartDateManual (text : List Char) (d : Draft) : StepOut :=
  if d.waitingManualStart = false then stay .waitingStartDate d
  else
    match parseManualDate (pstrip text) with
    | none => stay .waitingStartDate d
    | some dt =>
      { draft := some { d with startDate := some dt, waitingManualStart := false },
        state := .waitingEndDate, savedDoc := none }

def endDateChosen (userId : Nat) (templates : List Template) (d : Draft)
    (dt : Option Date) : StepOut :=
  showTemplateSelection userId templates { d with endDate := dt }

/-- `upload_end_date_callback`: like the start-date callback plus the
`skip` option, then hands off to `show_template_selection`. -/
def uploadEndDateCallback (data : List Char) (today : Date) (userId : Nat)
    (templates : List Template) (d : Draft) : StepOut :=
  let parts := splitOnPipe data
  if parts.length < 2 then stay .waitingEndDate d
  else
    let opt := parts.getD 1 []
    if opt = "skip".data then endDateChosen userId templates d none
    else if opt = "today".data then endDateChosen userId templates d (some today)
    else if opt = "+1m".data then endDateChosen userId templates d (some (addDays today 30))
    else if opt = "+3m".data then endDateChosen userId templates d (some (addDays today 90))
    else if opt = "+6m".data then endDateChosen userId templates d (some (addDays today 180))
    else if opt = "+1y".data then endDateChosen userId templates d (some (addDays today 365))
    else if opt = "+2y".data then endDateChosen userId templates d (some (addDays today 730))
    else if opt = "+5y".data then endDateChosen userId templates d (some (addDays today 1825))
    else if opt = "manual".data then
      { draft := some { d with waitingManualEnd := true }, state := .waitingEndDate,
        savedDoc := none }
    else stay .waitingEndDate d

/-- `upload_end_date_manual`. -/
def uploadEndDateManual (text : List Char) (userId : Nat) (templates : List Template)
    (d : Draft) : StepOut :=
  if d.waitingManualEnd = false then stay .waitingEndDate d
  else
    match parseManualDate (pstrip text) with
    | none => stay .waitingEndDate d
    | some dt =>
      let d2 : Draft := { d with endDate := some dt, waitingManualEnd := false }
      if templates = [] then saveDocument userId d2
      else { draft := some d2, state := .waitingTemplate, savedDoc := none }

/-! ## Conversation entry (`upload_start`) -/

structure IncomingFile where
  fileId : List Char
  fileName : List Char
  fileSize : Nat
deriving DecidableEq, Repr

inductive StartOutcome where
  | limitReached
  | noFile
  | invalidFile
  | accepted
deriving DecidableEq, Repr

structure StartOut where
  draft : Option Draft
  state : UpState
  outcome : StartOutcome
deriving DecidableEq, Repr

/-- `upload_start`: the document-count limit is checked first, before
the file is examined, validated, or any draft written. -/
def uploadStart (docCount maxDocs : Nat) (incoming : Option IncomingFile)
    (allowedExts : List (List Char)) (maxFileSize : Nat)
    (prior : Option Draft) : StartOut :=
  if docCount ≥ maxDocs then { draft := prior, state := .ended, outcome := .limitReached }
  else
    match incoming with
    | none => { draft := prior, state := .ended, outcome := .noFile }
    | some f =>
      if validateFile f.fileName f.fileSize allowedExts maxFileSize = false then
        { draft := prior, state := .ended, outcome := .invalidFile }
      else
        { draft := some { fileId := f.fileId, fileName := some f.fileName,
                          fileType := getFileType f.fileName },
          state := .waitingName, outcome := .accepted }

/-! ## Callback routing (`get_document_callback_handlers`)

python-telegram-bot dispatches a callback query to the first registered
handler whose pattern matches; the registered patterns are anchored
regexes over the token, in the registration order of
`handlers/documents.py`. -/

inductive DocRoute where
  | view
  | download
  | deleteConfirm
  | deleteExecute
  | edit
  | mydocsList
  | noMatch
deriving DecidableEq, Repr

/-- The pattern of the confirm-delete handler,
`r"^doc\|delete\|(?!yes)"`: the token starts with `doc|delete|` and the
negative lookahead forbids `yes` right after the 11-character prefix. -/
def matchDeleteConfirm (s : List Char) : Bool :=
  isPre "doc|delete|".data s && !(isPre "yes".data (s.drop 11))

/-- First-match dispatch over the document callback handlers, in their
registration order. -/
def dispatchDocCallback (s : List Char) : DocRoute :=
  if isPre "doc|view|".data s then .view
  else if isPre "doc|download|".data s then .download
  else if matchDeleteConfirm s then .deleteConfirm
  else if isPre "doc|delete_yes|".data s then .deleteExecute
  else if isPre "doc|edit|".data s then .edit
  else if isPre "mydocs|list|".data s then .mydocsList
  else .noMatch

/-! ## Pagination builders (`utils.build_pagination_keyboard`,
`utils.build_templates_keyboard`) -/

structure PageNav (α : Type) where
  pageItems : List α
  totalPages : Nat
  hasPrev : Bool
  hasNext : Bool

/-- `build_pagination_keyboard`: plain ceiling division with no lower
bound, `items[start:end]` slicing, nav arrows only when there is more
than one page. -/
def buildPaginationKeyboard {α : Type} (items : List α) (page pageSize : Nat) : PageNav α :=
  let totalPages := (items.length + pageSize - 1) / pageSize
  let startIdx := page * pageSize
  let endIdx := min (startIdx + pageSize) items.length
  { pageItems := (items.take endIdx).drop startIdx
    totalPages := totalPages
    hasPrev := decide (totalPages > 1) && decide (page > 0)
    hasNext := decide (totalPages > 1) && decide (page < totalPages - 1) }

/-- `build_templates_keyboard`: same, but `total_pages = max(1, ...)`. -/
def buildTemplatesKeyboard (templates : List Template) (page pageSize : Nat) :
    PageNav Template :=
  let totalPages := max 1 ((templates.length + pageSize - 1) / pageSize)
  let startIdx := page * pageSize
  let endIdx := min (startIdx + pageSize) templates.length
  { pageItems := (templates.take endIdx).drop startIdx
    totalPages := totalPages
    hasPrev := decide (totalPages > 1) && decide (page > 0)
    hasNext := decide (totalPages > 1) && decide (page < totalPages - 1) }

/-! ## Reminder scheduler (`jobs.send_reminders`) with its ledger
(`database.is_reminder_sent`, `database.mark_reminder_sent`,
`database.get_expiring_documents`)

Dates at this layer are proleptic day numbers (SQLite's
`julianday(end) - julianday(today)` is their exact integer difference
for `DATE` values).  `ok` is the delivery oracle: whether
`bot.send_message` succeeds for a given (document, threshold). -/

structure RDoc where
  id : Nat
  userTgId : Nat
  endDate : Option Int
deriving DecidableEq, Repr

abbrev Ledger := List (Nat × Int)

/-- The `WHERE` clause of `get_expiring_documents`. -/
def expiresOn (d : RDoc) (today days : Int) : Bool :=
  match d.endDate with
  | some e => decide (e - today = days)
  | none => false

def getExpiringDocuments (days today : Int) (docs : List RDoc) : List RDoc :=
  docs.filter fun d => expiresOn d today days

/-- `is_reminder_sent`: a `SELECT` on the `reminders_sent` table. -/
def isReminderSent (ledger : Ledger) (docId : Nat) (days : Int) : Bool :=
  decide ((docId, days) ∈ ledger)

/-- `mark_reminder_sent`: `INSERT OR IGNORE` under the
`UNIQUE(document_id, days_before)` constraint. -/
def markReminderSent (ledger : Ledger) (docId : Nat) (days : Int) : Ledger :=
  if (docId, days) ∈ ledger then ledger else ledger ++ [(docId, days)]

/-- The inner `for doc in documents` loop of `send_reminders`: skip
pairs already in the ledger, attempt delivery, record the ledger entry
only on success, continue past failures.  Returns the updated ledger
and the pairs delivered by this loop. -/
def processDocs (ok : Nat → Int → Bool) (days : Int) :
    List RDoc → Ledger → Ledger × List (Nat × Int)
  | [], l => (l, [])
  | d :: ds, l =>
    if isReminderSent l d.id days then processDocs ok days ds l
    else if ok d.id days then
      ((processDocs ok days ds (markReminderSent l d.id days)).1,
       (d.id, days) :: (processDocs ok days ds (markReminderSent l d.id days)).2)
    else processDocs ok days ds l

/-- The outer `for days in REMINDER_DAYS_BEFORE` loop. -/
def processThresholds (ok : Nat → Int → Bool) (today : Int) (docs : List RDoc) :
    List Int → Ledger → Ledger × List (Nat × Int)
  | [], l => (l, [])
  | days :: rest, l =>
    ((processThresholds ok today docs rest
        (processDocs ok days (getExpiringDocuments days today docs) l).1).1,
     (processDocs ok days (getExpiringDocuments days today docs) l).2 ++
       (processThresholds ok today docs rest
         (processDocs ok days (getExpiringDocuments days today docs) l).1).2)

/-- One run of `send_reminders`. -/
def sendReminders (thresholds : List Int) (today : Int) (docs : List RDoc)
    (ok : Nat → Int → Bool) (ledger : Ledger) : Ledger × List (Nat × Int) :=
  processThresholds ok today docs thresholds ledger

/-! ## `database.delete_document` -/

structure DocRow where
  id : Nat
  userId : Nat
deriving DecidableEq, Repr

structure DB where
  documents : List DocRow
  reminders : List (Nat × Int)
deriving DecidableEq, Repr

inductive DelOp where
  | delReminders (docId : Nat)
  | delDocument (docId : Nat)
deriving DecidableEq, Repr

/-- `delete_document`: existence/ownership check, then `DELETE FROM
reminders_sent`, then `DELETE FROM documents`; the returned trace
records the order of the two `DELETE` statements. -/
def deleteDocumentDb (docId userId : Nat) (db : DB) : DB × Bool × List DelOp :=
  if db.documents.any fun r => decide (r.id = docId) && decide (r.userId = userId) then
    ({ documents := db.documents.filter
         fun r => !(decide (r.id = docId) && decide (r.userId = userId)),
       reminders := db.reminders.filter fun p => !decide (p.1 = docId) },
     decide ((db.documents.filter
         fun r => !(decide (r.id = docId) && decide (r.userId = userId))).length
           < db.documents.length),
     [DelOp.delReminders docId, DelOp.delDocument docId])
  else (db, false, [])

/-! ## Lemmas about the reminder scheduler -/

theorem mem_markReminderSent (l : Ledger) (i : Nat) (dy : Int) (p : Nat × Int) :
    p ∈ markReminderSent l i dy ↔ p ∈ l ∨ p = (i, dy) := by
  unfold markReminderSent
  by_cases h : (i, dy) ∈ l
  · rw [if_pos h]
    constructor
    · exact Or.inl
    · rintro (hp | rfl)
      · exact hp
      · exact h
  · rw [if_neg h]
    simp

theorem count_eq_one_of_nodup_mem {α : Type} [BEq α] [LawfulBEq α] {l : List α} {p : α}
    (hn : l.Nodup) (hm : p ∈ l) : l.count p = 1 := by
  induction l with
  | nil => simp at hm
  | cons a as ih =>
    rcases List.mem_cons.mp hm with rfl | h
    · rw [List.count_cons_self, List.count_eq_zero.mpr (List.nodup_cons.mp hn).1]
    · have hne : p ≠ a := by
        intro he
        exact (List.nodup_cons.mp hn).1 (he ▸ h)
      rw [List.count_cons_of_ne hne as, ih (List.nodup_cons.mp hn).2 h]

theorem processDocs_ledger (ok : Nat → Int → Bool) (days : Int) (ds : List RDoc) :
    ∀ (l : Ledger) (p : Nat × Int),
      p ∈ (processDocs ok days ds l).1 ↔ p ∈ l ∨ p ∈ (processDocs ok days ds l).2 := by
  induction ds with
  | nil => intro l p; simp [processDocs]
  | cons d ds ih =>
    intro l p
    rw [processDocs]
    by_cases h1 : isReminderSent l d.id days = true
    · rw [if_pos h1]
      exact ih l p
    · rw [if_neg h1]
      by_cases h2 : ok d.id days = true
      · rw [if_pos h2]
        dsimp only
        rw [ih, mem_markReminderSent, List.mem_cons]
        tauto
      · rw [if_neg h2]
        exact ih l p

theorem processDocs_mono (ok : Nat → Int → Bool) (days : Int) (ds : List RDoc)
    (l : Ledger) (p : Nat × Int) (hp : p ∈ l) : p ∈ (processDocs ok days ds l).1 :=
  (processDocs_ledger ok days ds l p).mpr (Or.inl hp)

theorem processDocs_sent (ok : Nat → Int → Bool) (days : Int) (ds : List RDoc) :
    ∀ (l : Ledger) (p : Nat × Int), p ∈ (processDocs ok days ds l).2 →
      p.2 = days ∧ ok p.1 days = true ∧ p ∉ l ∧ ∃ d ∈ ds, d.id = p.1 := by
  induction ds with
  | nil => intro l p hp; simp [processDocs] at hp
  | cons d ds ih =>
    intro l p hp
    rw [processDocs] at hp
    by_cases h1 : isReminderSent l d.id days = true
    · rw [if_pos h1] at hp
      obtain ⟨ha, hb, hc, d2, hd2, he⟩ := ih l p hp
      exact ⟨ha, hb, hc, d2, List.mem_cons_of_mem _ hd2, he⟩
    · rw [if_neg h1] at hp
      by_cases h2 : ok d.id days = true
      · rw [if_pos h2] at hp
        rcases List.mem_cons.mp hp with rfl | hp2
        · refine ⟨rfl, h2, ?_, d, List.mem_cons_self _ _, rfl⟩
          simpa [isReminderSent] using h1
        · obtain ⟨ha, hb, hc, d2, hd2, he⟩ := ih _ p hp2
          refine ⟨ha, hb, ?_, d2, List.mem_cons_of_mem _ hd2, he⟩
          intro hmem
          exact hc ((mem_markReminderSent _ _ _ _).mpr (Or.inl hmem))
      · rw [if_neg h2] at hp
        obtain ⟨ha, hb, hc, d2, hd2, he⟩ := ih l p hp
        exact ⟨ha, hb, hc, d2, List.mem_cons_of_mem _ hd2, he⟩

theorem processDocs_nodup (ok : Nat → Int → Bool) (days : Int) (ds : List RDoc) :
    ∀ l : Ledger, (processDocs ok days ds l).2.Nodup := by
  induction ds with
  | nil => intro l; simp [processDocs]
  | cons d ds ih =>
    intro l
    rw [processDocs]
    by_cases h1 : isReminderSent l d.id days = true
    · rw [if_pos h1]; exact ih l
    · rw [if_neg h1]
      by_cases h2 : ok d.id days = true
      · rw [if_pos h2]
        refine List.nodup_cons.mpr ⟨?_, ih _⟩
        intro hmem
        exact (processDocs_sent ok days ds _ _ hmem).2.2.1
          ((mem_markReminderSent _ _ _ _).mpr (Or.inr rfl))
      · rw [if_neg h2]; exact ih l

theorem processDocs_complete (ok : Nat → Int → Bool) (days : Int) (ds : List RDoc) :
    ∀ (l : Ledger) (d : RDoc), d ∈ ds → ok d.id days = true →
      (d.id, days) ∈ (processDocs ok days ds l).1 := by
  induction ds with
  | nil => intro l d hd; simp at hd
  | cons d0 ds ih =>
    intro l d hd hok
    rw [processDocs]
    rcases List.mem_cons.mp hd with rfl | hd2
    · by_cases h1 : isReminderSent l d.id days = true
      · rw [if_pos h1]
        exact processDocs_mono ok days ds l _ (by simpa [isReminderSent] using h1)
      · rw [if_neg h1, if_pos hok]
        exact processDocs_mono ok days ds _ _
          ((mem_markReminderSent _ _ _ _).mpr (Or.inr rfl))
    · by_cases h1 : isReminderSent l d0.id days = true
      · rw [if_pos h1]; exact ih l d hd2 hok
      · rw [if_neg h1]
        by_cases h2 : ok d0.id days = true
        · rw [if_pos h2]; exact ih _ d hd2 hok
        · rw [if_neg h2]; exact ih l d hd2 hok

theorem processThresholds_ledger (ok : Nat → Int → Bool) (today : Int) (docs : List RDoc)
    (th : List Int) :
    ∀ (l : Ledger) (p : Nat × Int),
      p ∈ (processThresholds ok today docs th l).1 ↔
        p ∈ l ∨ p ∈ (processThresholds ok today docs th l).2 := by
  induction th with
  | nil => intro l p; simp [processThresholds]
  | cons days rest ih =>
    intro l p
    rw [processThresholds]
    dsimp only
    rw [ih, processDocs_ledger, List.mem_append]
    tauto

theorem processThresholds_mono (ok : Nat → Int → Bool) (today : Int) (docs : List RDoc)
    (th : List Int) (l : Ledger) (p : Nat × Int) (hp : p ∈ l) :
    p ∈ (processThresholds ok today docs th l).1 :=
  (processThresholds_ledger ok today docs th l p).mpr (Or.inl hp)

theorem processThresholds_sent (ok : Nat → Int → Bool) (today : Int) (docs : List RDoc)
    (th : List Int) :
    ∀ (l : Ledger) (p : Nat × Int), p ∈ (processThresholds ok today docs th l).2 →
      p.2 ∈ th ∧ ok p.1 p.2 = true ∧ p ∉ l ∧
        ∃ d ∈ docs, d.id = p.1 ∧ expiresOn d today p.2 = true := by
  induction th with
  | nil => intro l p hp; simp [processThresholds] at hp
  | cons days rest ih =>
    intro l p hp
    rw [processThresholds] at hp
    dsimp only at hp
    rcases List.mem_append.mp hp with h | h
    · obtain ⟨h2, hok, hnl, d, hd, hid⟩ := processDocs_sent ok days _ l p h
      rw [getExpiringDocuments] at hd
      have hd2 := List.mem_filter.mp hd
      refine ⟨by rw [h2]; exact List.mem_cons_self _ _, by rwa [h2], hnl,
        d, hd2.1, hid, ?_⟩
      rw [h2]
      exact hd2.2
    · obtain ⟨hth, hok, hnl, hex⟩ := ih _ p h
      refine ⟨List.mem_cons_of_mem _ hth, hok, ?_, hex⟩
      intro hmem
      exact hnl (processDocs_mono ok days _ l p hmem)

theorem processThresholds_nodup (ok : Nat → Int → Bool) (today : Int) (docs : List RDoc)
    (th : List Int) :
    ∀ l : Ledger, (processThresholds ok today docs th l).2.Nodup := by
  induction th with
  | nil => intro l; simp [processThresholds]
  | cons days rest ih =>
    intro l
    rw [processThresholds]
    dsimp only
    rw [List.nodup_append]
    refine ⟨processDocs_nodup ok days _ l, ih _, ?_⟩
    intro p hp1 hp2
    have h1 : p ∈ (processDocs ok days (getExpiringDocuments days today docs) l).1 :=
      (processDocs_ledger ok days _ l p).mpr (Or.inr hp1)
    exact (processThresholds_sent ok today docs rest _ p hp2).2.2.1 h1

theorem processThresholds_complete (ok : Nat → Int → Bool) (today : Int) (docs : List RDoc)
    (th : List Int) :
    ∀ (l : Ledger) (d : RDoc) (days : Int), d ∈ docs → days ∈ th →
      expiresOn d today days = true → ok d.id days = true →
      (d.id, days) ∈ (processThresholds ok today docs th l).1 := by
  induction th with
  | nil => intro l d days _ h; simp at h
  | cons days0 rest ih =>
    intro l d days hd hdays hexp hok
    rw [processThresholds]
    dsimp only
    rcases List.mem_cons.mp hdays with rfl | h2
    · apply processThresholds_mono
      apply processDocs_complete
      · rw [getExpiringDocuments]
        exact List.mem_filter.mpr ⟨hd, hexp⟩
      · exact hok
    · exact ih _ d days hd h2 hexp hok

/-- C1: running `send_reminders` twice with the same `today` delivers
each eligible (document, threshold) pair exactly once; the second run
delivers nothing further, and a duplicate ledger insert
(`mark_reminder_sent` on an existing key) is a no-op, never an error. -/
theorem reminder_scheduler_idempotent
    (thresholds : List Int) (today : Int) (docs : List RDoc) (ledger : Ledger)
    (doc : RDoc) (days : Int)
    (hdoc : doc ∈ docs) (hdays : days ∈ thresholds)
    (hexp : expiresOn doc today days = true)
    (hnew : (doc.id, days) ∉ ledger) :
    (sendReminders thresholds today docs (fun _ _ => true) ledger).2.count (doc.id, days) = 1 ∧
    (sendReminders thresholds today docs (fun _ _ => true)
      (sendReminders thresholds today docs (fun _ _ => true) ledger).1).2 = [] ∧
    (∀ (l : Ledger) (i : Nat) (dy : Int), (i, dy) ∈ l → markReminderSent l i dy = l) := by
  refine ⟨?_, ?_, ?_⟩
  · have hmem1 : (doc.id, days) ∈
        (sendReminders thresholds today docs (fun _ _ => true) ledger).1 :=
      processThresholds_complete _ today docs thresholds ledger doc days hdoc hdays hexp rfl
    rcases (processThresholds_ledger _ today docs thresholds ledger (doc.id, days)).mp hmem1
      with h | h
    · exact absurd h hnew
    · exact count_eq_one_of_nodup_mem
        (processThresholds_nodup _ today docs thresholds ledger) h
  · rw [List.eq_nil_iff_forall_not_mem]
    intro p hp
    obtain ⟨hth, _, hnl, d, hd, hid, hexp2⟩ :=
      processThresholds_sent (fun _ _ => true) today docs thresholds _ p hp
    apply hnl
    have h1 := processThresholds_complete (fun _ _ => true) today docs thresholds ledger
      d p.2 hd hth hexp2 rfl
    rw [hid, Prod.mk.eta] at h1
    exact h1
  · intro l i dy h
    unfold markReminderSent
    rw [if_pos h]

/-- Witness for C1: one document expiring in 7 days from day 98, with
thresholds {0,1,3,7,30} and an empty ledger. -/
theorem reminder_scheduler_idempotent_witness :
    (sendReminders [0, 1, 3, 7, 30] 98 [⟨1, 100, some 105⟩] (fun _ _ => true) []).2.count
        (1, 7) = 1 ∧
    (sendReminders [0, 1, 3, 7, 30] 98 [⟨1, 100, some 105⟩] (fun _ _ => true)
      (sendReminders [0, 1, 3, 7, 30] 98 [⟨1, 100, some 105⟩] (fun _ _ => true) []).1).2 = [] ∧
    (∀ (l : Ledger) (i : Nat) (dy : Int), (i, dy) ∈ l → markReminderSent l i dy = l) :=
  reminder_scheduler_idempotent [0, 1, 3, 7, 30] 98 [⟨1, 100, some 105⟩] []
    ⟨1, 100, some 105⟩ 7 (by decide) (by decide) (by decide) (by decide)

/-- C3: ledger entries are created exactly for the successful
deliveries of the run (never for failed ones), and a failing delivery
for one pair does not prevent any other eligible pair from being
delivered in the same run. -/
theorem reminder_failure_isolated
    (thresholds : List Int) (today : Int) (docs : List RDoc)
    (ok : Nat → Int → Bool) (ledger : Ledger) :
    (∀ p : Nat × Int,
        p ∈ (sendReminders thresholds today docs ok ledger).1 ↔
          p ∈ ledger ∨ p ∈ (sendReminders thresholds today docs ok ledger).2) ∧
    (∀ p : Nat × Int, p ∈ (sendReminders thresholds today docs ok ledger).2 →
        ok p.1 p.2 = true ∧ p ∉ ledger) ∧
    (∀ d ∈ docs, ∀ days ∈ thresholds,
        expiresOn d today days = true → ok d.id days = true → (d.id, days) ∉ ledger →
        (d.id, days) ∈ (sendReminders thresholds today docs ok ledger).2) := by
  refine ⟨?_, ?_, ?_⟩
  · intro p
    exact processThresholds_ledger ok today docs thresholds ledger p
  · intro p hp
    obtain ⟨_, hok, hnl, _⟩ := processThresholds_sent ok today docs thresholds ledger p hp
    exact ⟨hok, hnl⟩
  · intro d hd days hdays hexp hok hnew
    have h1 := processThresholds_complete ok today docs thresholds ledger d days
      hd hdays hexp hok
    rcases (processThresholds_ledger ok today docs thresholds ledger (d.id, days)).mp h1
      with h | h
    · exact absurd h hnew
    · exact h

/-- Witness for C3: delivery fails for document 1 but document 2, due
at the same threshold, is still delivered in the same run. -/
theorem reminder_failure_isolated_witness :
    ((2 : Nat), (7 : Int)) ∈
      (sendReminders [7] 3 [⟨1, 5, some 10⟩, ⟨2, 6, some 10⟩]
        (fun i _ => decide (i ≠ 1)) []).2 :=
  (reminder_failure_isolated [7] 3 [⟨1, 5, some 10⟩, ⟨2, 6, some 10⟩]
      (fun i _ => decide (i ≠ 1)) []).2.2
    ⟨2, 6, some 10⟩ (by decide) 7 (by decide) (by decide) (by decide) (by decide)

/-! ## Lemmas about the callback router -/

theorem isPre_take_of_append (pat l t : List Char) (h : isPre pat (l ++ t) = true) :
    isPre (pat.take l.length) l = true := by
  induction pat generalizing l with
  | nil => cases l <;> rfl
  | cons a as ih =>
    cases l with
    | nil => rfl
    | cons b bs =>
      rw [List.cons_append, isPre] at h
      by_cases hab : a = b
      · rw [if_pos hab] at h
        rw [List.length_cons, List.take_succ_cons, isPre, if_pos hab]
        exact ih bs h
      · rw [if_neg hab] at h
        exact absurd h (by simp)

theorem drop_eleven_append (id : List Char) : ("doc|delete|".data ++ id).drop 11 = id := by
  rw [show (11 : Nat) = ("doc|delete|".data).length from rfl]
  exact List.drop_left _ _

/-- C2: for every id not beginning with `yes`, a `doc|delete|<id>`
token routes to the confirm-delete handler only, and a
`doc|delete_yes|<id>` token routes to the execute-delete handler; the
negative lookahead and the registration order keep the two patterns
from cross-matching. -/
theorem router_delete_precedence (id : List Char) (h : isPre "yes".data id = false) :
    dispatchDocCallback ("doc|delete|".data ++ id) = DocRoute.deleteConfirm ∧
    dispatchDocCallback ("doc|delete_yes|".data ++ id) = DocRoute.deleteExecute := by
  constructor
  · have h1 : isPre "doc|view|".data ("doc|delete|".data ++ id) = false :=
      (isPre_append_of_le_length _ _ _ (by decide)).trans (by decide)
    have h2 : isPre "doc|download|".data ("doc|delete|".data ++ id) = false := by
      rw [Bool.eq_false_iff]
      intro htrue
      exact absurd (isPre_take_of_append _ _ _ htrue) (by decide)
    have h3 : matchDeleteConfirm ("doc|delete|".data ++ id) = true := by
      rw [matchDeleteConfirm, isPre_append_self, drop_eleven_append, h]
      rfl
    unfold dispatchDocCallback
    rw [if_neg (by rw [h1]; simp), if_neg (by rw [h2]; simp), if_pos h3]
  · have g1 : isPre "doc|view|".data ("doc|delete_yes|".data ++ id) = false :=
      (isPre_append_of_le_length _ _ _ (by decide)).trans (by decide)
    have g2 : isPre "doc|download|".data ("doc|delete_yes|".data ++ id) = false :=
      (isPre_append_of_le_length _ _ _ (by decide)).trans (by decide)
    have g3a : isPre "doc|delete|".data ("doc|delete_yes|".data ++ id) = false :=
      (isPre_append_of_le_length _ _ _ (by decide)).trans (by decide)
    have g3 : matchDeleteConfirm ("doc|delete_yes|".data ++ id) = false := by
      rw [matchDeleteConfirm, g3a]
      rfl
    have g4 : isPre "doc|delete_yes|".data ("doc|delete_yes|".data ++ id) = true :=
      isPre_append_self _ _
    unfold dispatchDocCallback
    rw [if_neg (by rw [g1]; simp), if_neg (by rw [g2]; simp), if_neg (by rw [g3]; simp),
      if_pos g4]

/-- Witness for C2 at the concrete id `7`. -/
theorem router_delete_precedence_witness :
    dispatchDocCallback ("doc|delete|".data ++ "7".data) = DocRoute.deleteConfirm ∧
    dispatchDocCallback ("doc|delete_yes|".data ++ "7".data) = DocRoute.deleteExecute :=
  router_delete_precedence "7".data (by decide)

/-! ## Quick-date options -/

/-- The end date the end-date callback committed to: the one carried by
the inserted document when the flow saved immediately, or the one in
the surviving draft otherwise. -/
def chosenEndDate (r : StepOut) : Option (Option Date) :=
  match r.savedDoc with
  | some doc => some doc.endDate
  | none =>
    match r.draft with
    | some d => some d.endDate
    | none => none

theorem chosenEndDate_endDateChosen (uid : Nat) (templates : List Template) (d : Draft)
    (dt : Option Date) : chosenEndDate (endDateChosen uid templates d dt) = some dt := by
  by_cases ht : templates = [] <;> by_cases hf : d.fileId = [] <;>
    simp [endDateChosen, showTemplateSelection, saveDocumentFromCallback, chosenEndDate,
      insertDocumentArgs, ht, hf]

/-- The option-token → day-offset table shared by the two if-chains in
`upload_start_date_callback` and `upload_end_date_callback`. -/
def quickDateOffsets : List (List Char × Nat) :=
  [("today".data, 0), ("+1m".data, 30), ("+3m".data, 90), ("+6m".data, 180),
   ("+1y".data, 365), ("+2y".data, 730), ("+5y".data, 1825)]

/-- C4: every quick-date option yields exactly today plus its fixed day
count, identically in the start-date and end-date callbacks, and the
offsets are pure day arithmetic (+30 days on 2024-01-15 gives
2024-02-14, not the +1-month date 2024-02-15). -/
theorem quick_date_offsets_exact (opt : List Char) (n : Nat) (today : Date) (uid : Nat)
    (templates : List Template) (d : Draft) (h : (opt, n) ∈ quickDateOffsets) :
    uploadStartDateCallback ("start|".data ++ opt) today d =
      { draft := some { d with startDate := some (addDays today n) },
        state := .waitingEndDate, savedDoc := none } ∧
    chosenEndDate (uploadEndDateCallback ("end|".data ++ opt) today uid templates d) =
      some (some (addDays today n)) ∧
    addDays ⟨2024, 1, 15⟩ 30 = ⟨2024, 2, 14⟩ := by
  simp only [quickDateOffsets, List.mem_cons, List.not_mem_nil, or_false,
    Prod.mk.injEq] at h
  rcases h with ⟨rfl, rfl⟩ | ⟨rfl, rfl⟩ | ⟨rfl, rfl⟩ | ⟨rfl, rfl⟩ | ⟨rfl, rfl⟩ |
    ⟨rfl, rfl⟩ | ⟨rfl, rfl⟩
  · exact ⟨rfl, by
      rw [show uploadEndDateCallback ("end|".data ++ "today".data) today uid templates d =
        endDateChosen uid templates d (some today) from rfl, chosenEndDate_endDateChosen]
      rfl,
      by decide⟩
  · exact ⟨rfl, by
      rw [show uploadEndDateCallback ("end|".data ++ "+1m".data) today uid templates d =
        endDateChosen uid templates d (some (addDays today 30)) from rfl,
        chosenEndDate_endDateChosen], by decide⟩
  · exact ⟨rfl, by
      rw [show uploadEndDateCallback ("end|".data ++ "+3m".data) today uid templates d =
        endDateChosen uid templates d (some (addDays today 90)) from rfl,
        chosenEndDate_endDateChosen], by decide⟩
  · exact ⟨rfl, by
      rw [show uploadEndDateCallback ("end|".data ++ "+6m".data) today uid templates d =
        endDateChosen uid templates d (some (addDays today 180)) from rfl,
        chosenEndDate_endDateChosen], by decide⟩
  · exact ⟨rfl, by
      rw [show uploadEndDateCallback ("end|".data ++ "+1y".data) today uid templates d =
        endDateChosen uid templates d (some (addDays today 365)) from rfl,
        chosenEndDate_endDateChosen], by decide⟩
  · exact ⟨rfl, by
      rw [show uploadEndDateCallback ("end|".data ++ "+2y".data) today uid templates d =
        endDateChosen uid templates d (some (addDays today 730)) from rfl,
        chosenEndDate_endDateChosen], by decide⟩
  · exact ⟨rfl, by
      rw [show uploadEndDateCallback ("end|".data ++ "+5y".data) today uid templates d =
        endDateChosen uid templates d (some (addDays today 1825)) from rfl,
        chosenEndDate_endDateChosen], by decide⟩

/-- Witness for C4 at the `+1y` option on 2024-01-15. -/
theorem quick_date_offsets_exact_witness :
    uploadStartDateCallback ("start|".data ++ "+1y".data) ⟨2024, 1, 15⟩ { fileId := ['f'] } =
      { draft := some { fileId := ['f'], startDate := some (addDays ⟨2024, 1, 15⟩ 365) },
        state := .waitingEndDate, savedDoc := none } ∧
    chosenEndDate (uploadEndDateCallback ("end|".data ++ "+1y".data) ⟨2024, 1, 15⟩ 0 []
        { fileId := ['f'] }) = some (some (addDays ⟨2024, 1, 15⟩ 365)) ∧
    addDays ⟨2024, 1, 15⟩ 30 = ⟨2024, 2, 14⟩ :=
  quick_date_offsets_exact "+1y".data 365 ⟨2024, 1, 15⟩ 0 [] { fileId := ['f'] } (by decide)

/-! ## Pagination arithmetic -/

theorem ceilNat_mul_ge (len ps : Nat) (h : 0 < ps) : len ≤ ((len + ps - 1) / ps) * ps := by
  rcases Nat.eq_zero_or_pos len with h0 | hpos
  · simp [h0]
  · have hq : (len + ps - 1) / ps = (len - 1) / ps + 1 := by
      have he : len + ps - 1 = (len - 1) + ps := by omega
      rw [he, Nat.add_div_right _ h]
    have h3 : len - 1 < ((len - 1) / ps + 1) * ps :=
      (Nat.div_lt_iff_lt_mul h).mp (Nat.lt_succ_self _)
    rw [hq]
    calc len = len - 1 + 1 := by omega
      _ ≤ ((len - 1) / ps + 1) * ps := Nat.succ_le_of_lt h3

theorem ceilNat_pred_mul_lt (len ps : Nat) (h : 0 < ps) (hpos : 0 < len) :
    ((len + ps - 1) / ps - 1) * ps < len := by
  have hq : (len + ps - 1) / ps = (len - 1) / ps + 1 := by
    have he : len + ps - 1 = (len - 1) + ps := by omega
    rw [he, Nat.add_div_right _ h]
  rw [hq]
  simp only [Nat.add_sub_cancel]
  exact Nat.lt_of_le_of_lt (Nat.div_mul_le_self (len - 1) ps) (by omega)

theorem ceilNat_pos (len ps : Nat) (h : 0 < ps) (hpos : 0 < len) :
    1 ≤ (len + ps - 1) / ps := by
  rw [Nat.le_div_iff_mul_le h]
  omega

/-- Counterexample for C5: on an empty item list
`build_pagination_keyboard` computes `total_pages = 0`, not the
claimed minimum of 1. -/
theorem pagination_empty_total_pages_zero :
    (buildPaginationKeyboard ([] : List Nat) 0 10).totalPages = 0 ∧ (0 : Nat) ≠ 1 :=
  ⟨rfl, by decide⟩

/-- C5 (amended): `build_templates_keyboard` computes
`max 1 ⌈count/pageSize⌉`; `build_pagination_keyboard` computes the
plain ceiling, which is 0 exactly on an empty list; both give 3 total
pages for 25 items at page size 10. -/
theorem pagination_total_pages_amended {α : Type} (items : List α)
    (templates : List Template) (page ps : Nat) (h : 0 < ps) :
    1 ≤ (buildTemplatesKeyboard templates page ps).totalPages ∧
    templates.length ≤ (buildTemplatesKeyboard templates page ps).totalPages * ps ∧
    (0 < templates.length →
      ((buildTemplatesKeyboard templates page ps).totalPages - 1) * ps <
        templates.length) ∧
    items.length ≤ (buildPaginationKeyboard items page ps).totalPages * ps ∧
    (0 < items.length → 1 ≤ (buildPaginationKeyboard items page ps).totalPages) ∧
    (items.length = 0 → (buildPaginationKeyboard items page ps).totalPages = 0) ∧
    (buildPaginationKeyboard (List.range 25) page 10).totalPages = 3 ∧
    (buildTemplatesKeyboard ((List.range 25).map fun i => ⟨i, [], 0⟩) page 10).totalPages
      = 3 := by
  simp only [buildTemplatesKeyboard, buildPaginationKeyboard]
  refine ⟨le_max_left _ _, ?_, ?_, ceilNat_mul_ge _ _ h, ?_, ?_, rfl, ?_⟩
  · exact le_trans (ceilNat_mul_ge _ _ h)
      (Nat.mul_le_mul_right ps (le_max_right _ _))
  · intro hpos
    rw [Nat.max_eq_right (ceilNat_pos _ _ h hpos)]
    exact ceilNat_pred_mul_lt _ _ h hpos
  · intro hpos
    exact ceilNat_pos _ _ h hpos
  · intro h0
    rw [h0]
    exact Nat.div_eq_of_lt (by omega)
  · rfl

/-- Witness for C5: 25 items at page size 10. -/
theorem pagination_total_pages_amended_witness :
    1 ≤ (buildTemplatesKeyboard [] 0 10).totalPages ∧
    ([] : List Template).length ≤ (buildTemplatesKeyboard [] 0 10).totalPages * 10 ∧
    (0 < ([] : List Template).length →
      ((buildTemplatesKeyboard [] 0 10).totalPages - 1) * 10 <
        ([] : List Template).length) ∧
    (List.range 25).length ≤ (buildPaginationKeyboard (List.range 25) 0 10).totalPages * 10 ∧
    (0 < (List.range 25).length →
      1 ≤ (buildPaginationKeyboard (List.range 25) 0 10).totalPages) ∧
    ((List.range 25).length = 0 →
      (buildPaginationKeyboard (List.range 25) 0 10).totalPages = 0) ∧
    (buildPaginationKeyboard (List.range 25) 0 10).totalPages = 3 ∧
    (buildTemplatesKeyboard ((List.range 25).map fun i => ⟨i, [], 0⟩) 0 10).totalPages = 3 :=
  pagination_total_pages_amended (List.range 25) [] 0 10 (by decide)

/-! ## Upload limit, manual dates, template skip, long names -/

/-- C6: when the owner already has at least the configured maximum of
documents, `upload_start` ends the conversation at file receipt with
the limit outcome and writes no draft, whatever file (if any) arrived
and whatever the validation configuration is. -/
theorem upload_limit_blocks (docCount maxDocs : Nat) (incoming : Option IncomingFile)
    (allowedExts : List (List Char)) (maxFileSize : Nat) (prior : Option Draft)
    (h : maxDocs ≤ docCount) :
    uploadStart docCount maxDocs incoming allowedExts maxFileSize prior =
      { draft := prior, state := .ended, outcome := .limitReached } := by
  unfold uploadStart
  rw [if_pos h]

/-- Witness for C6: a user at the cap of 10 documents sending a valid
pdf with no prior draft. -/
theorem upload_limit_blocks_witness :
    uploadStart 10 10 (some ⟨"f1".data, "a.pdf".data, 5⟩) [".pdf".data] 1000 none =
      { draft := none, state := .ended, outcome := .limitReached } :=
  upload_limit_blocks 10 10 (some ⟨"f1".data, "a.pdf".data, 5⟩) [".pdf".data] 1000 none
    (by decide)

/-- C7: manual date entry tries exactly the formats `%d.%m.%Y`,
`%d/%m/%Y`, `%Y-%m-%d` in that order with the first success winning;
the three canonical strings denote the same date, and an input all
three formats reject re-prompts with the conversation state and the
draft unchanged in both manual handlers. -/
theorem manual_date_formats (s t : List Char) (dt : Date) (uid : Nat)
    (templates : List Template) (d : Draft) :
    (strptimeDMY '.' s = some dt → parseManualDate s = some dt) ∧
    (strptimeDMY '.' s = none → strptimeDMY '/' s = some dt → parseManualDate s = some dt) ∧
    (strptimeDMY '.' s = none → strptimeDMY '/' s = none →
      parseManualDate s = strptimeYMD s) ∧
    (parseManualDate "01.01.2024".data = some ⟨2024, 1, 1⟩ ∧
     parseManualDate "01/01/2024".data = some ⟨2024, 1, 1⟩ ∧
     parseManualDate "2024-01-01".data = some ⟨2024, 1, 1⟩) ∧
    (parseManualDate (pstrip t) = none →
      uploadStartDateManual t d = stay .waitingStartDate d ∧
      uploadEndDateManual t uid templates d = stay .waitingEndDate d) := by
  refine ⟨?_, ?_, ?_, by decide, ?_⟩
  · intro h1
    simp [parseManualDate, h1]
  · intro h1 h2
    simp [parseManualDate, h1, h2]
  · intro h1 h2
    simp [parseManualDate, h1, h2]
  · intro hfail
    constructor
    · by_cases hw : d.waitingManualStart = false
      · simp [uploadStartDateManual, hw]
      · simp [uploadStartDateManual, hw, hfail]
    · by_cases hw : d.waitingManualEnd = false
      · simp [uploadEndDateManual, hw]
      · simp [uploadEndDateManual, hw, hfail]

/-- Witness for C7: the dotted canonical string parses and the
free-text string is rejected leaving the state unchanged. -/
theorem manual_date_formats_witness :
    parseManualDate "01.01.2024".data = some ⟨2024, 1, 1⟩ ∧
    uploadStartDateManual "Jan 1 2024".data { fileId := ['f'], waitingManualStart := true } =
      stay .waitingStartDate { fileId := ['f'], waitingManualStart := true } :=
  ⟨(manual_date_formats [] [] ⟨2024, 1, 1⟩ 0 [] { fileId := ['f'] }).2.2.2.1.1,
   ((manual_date_formats [] "Jan 1 2024".data ⟨2024, 1, 1⟩ 0 []
      { fileId := ['f'], waitingManualStart := true }).2.2.2.2 (by decide)).1⟩

/-- C8: a caller owning zero templates bypasses the template state
after end-date selection — quick option, skip, or successful manual
entry — and the document is inserted at once with a null template id,
ending the conversation. -/
theorem no_templates_skips_template_state (today : Date) (uid : Nat) (d : Draft)
    (t : List Char) (dt : Date)
    (hfile : ¬ d.fileId = []) (htid : d.templateId = none) :
    (∀ opt ∈ ["skip".data, "today".data, "+1m".data, "+3m".data, "+6m".data,
        "+1y".data, "+2y".data, "+5y".data],
      (uploadEndDateCallback ("end|".data ++ opt) today uid [] d).state = .ended ∧
      (uploadEndDateCallback ("end|".data ++ opt) today uid [] d).draft = none ∧
      ∃ doc, (uploadEndDateCallback ("end|".data ++ opt) today uid [] d).savedDoc
          = some doc ∧ doc.templateId = none) ∧
    (d.waitingManualEnd = true → parseManualDate (pstrip t) = some dt →
      (uploadEndDateManual t uid [] d).state = .ended ∧
      (uploadEndDateManual t uid [] d).draft = none ∧
      ∃ doc, (uploadEndDateManual t uid [] d).savedDoc = some doc ∧
        doc.templateId = none) := by
  constructor
  · intro opt hopt
    have hsave : ∀ dt2 : Option Date,
        (saveDocumentFromCallback uid { d with endDate := dt2 }).state = .ended ∧
        (saveDocumentFromCallback uid { d with endDate := dt2 }).draft = none ∧
        ∃ doc, (saveDocumentFromCallback uid { d with endDate := dt2 }).savedDoc
            = some doc ∧ doc.templateId = none := by
      intro dt2
      unfold saveDocumentFromCallback
      rw [if_neg (show ¬ ({ d with endDate := dt2 } : Draft).fileId = [] from hfile)]
      exact ⟨rfl, rfl, insertDocumentArgs uid { d with endDate := dt2 }, rfl, htid⟩
    simp only [List.mem_cons, List.not_mem_nil, or_false] at hopt
    rcases hopt with rfl | rfl | rfl | rfl | rfl | rfl | rfl | rfl
    · exact hsave none
    · exact hsave (some today)
    · exact hsave (some (addDays today 30))
    · exact hsave (some (addDays today 90))
    · exact hsave (some (addDays today 180))
    · exact hsave (some (addDays today 365))
    · exact hsave (some (addDays today 730))
    · exact hsave (some (addDays today 1825))
  · intro hw hp
    have e1 : uploadEndDateManual t uid [] d =
        saveDocument uid { d with endDate := some dt, waitingManualEnd := false } := by
      unfold uploadEndDateManual
      rw [hw, if_neg (by simp), hp]
      rfl
    rw [e1]
    unfold saveDocument
    rw [if_neg (show ¬ ({ d with endDate := some dt, waitingManualEnd := false } :
      Draft).fileId = [] from hfile)]
    exact ⟨rfl, rfl, insertDocumentArgs uid _, rfl, htid⟩

/-- Witness for C8: skipping the end date with no templates saves at
once with a null template id. -/
theorem no_templates_skips_template_state_witness :
    (uploadEndDateCallback ("end|".data ++ "skip".data) ⟨2024, 1, 15⟩ 3 []
        { fileId := ['f'] }).state = UpState.ended ∧
    (uploadEndDateCallback ("end|".data ++ "skip".data) ⟨2024, 1, 15⟩ 3 []
        { fileId := ['f'] }).draft = none ∧
    ∃ doc, (uploadEndDateCallback ("end|".data ++ "skip".data) ⟨2024, 1, 15⟩ 3 []
        { fileId := ['f'] }).savedDoc = some doc ∧ doc.templateId = none :=
  (no_templates_skips_template_state ⟨2024, 1, 15⟩ 3 { fileId := ['f'] } [] ⟨2024, 1, 1⟩
      (by decide) rfl).1 "skip".data (by decide)

/-- C10: in the name state a stripped text longer than 100 characters
is not rejected: it is truncated to its first 100 characters, stored
in the draft, and the conversation advances to the start-date state. -/
theorem long_name_truncated (text : List Char) (d : Draft)
    (h : 100 < (pstrip text).length) :
    uploadName text d =
      { draft := some { d with name := some ((pstrip text).take 100) },
        state := .waitingStartDate, savedDoc := none } := by
  simp only [uploadName]
  rw [if_neg (by omega), if_pos h]

/-- Witness for C10: a 101-character name. -/
theorem long_name_truncated_witness :
    uploadName (List.replicate 101 'a') { fileId := ['f'] } =
      { draft :=
          some { fileId := ['f'], name := some ((pstrip (List.replicate 101 'a')).take 100) },
        state := .waitingStartDate, savedDoc := none } :=
  long_name_truncated (List.replicate 101 'a') { fileId := ['f'] } (by decide)

/-! ## delete_document -/

theorem deleteDocumentDb_any_iff (docId userId : Nat) (db : DB) :
    (db.documents.any fun r => decide (r.id = docId) && decide (r.userId = userId)) = true ↔
      ∃ r ∈ db.documents, r.id = docId ∧ r.userId = userId := by
  simp [List.any_eq_true]

/-- C9: `delete_document` removes the document's reminder rows before
the document row itself, and on a missing or foreign document it
returns failure having deleted nothing. -/
theorem delete_document_dependency_order (docId userId : Nat) (db : DB) :
    ((¬ ∃ r ∈ db.documents, r.id = docId ∧ r.userId = userId) →
      deleteDocumentDb docId userId db = (db, false, [])) ∧
    ((∃ r ∈ db.documents, r.id = docId ∧ r.userId = userId) →
      (deleteDocumentDb docId userId db).2.2 =
          [DelOp.delReminders docId, DelOp.delDocument docId] ∧
      (deleteDocumentDb docId userId db).2.1 = true ∧
      (∀ p ∈ (deleteDocumentDb docId userId db).1.reminders, ¬ p.1 = docId) ∧
      (∀ r ∈ (deleteDocumentDb docId userId db).1.documents,
        ¬ (r.id = docId ∧ r.userId = userId)) ∧
      (∀ p ∈ db.reminders, ¬ p.1 = docId →
        p ∈ (deleteDocumentDb docId userId db).1.reminders) ∧
      (∀ r ∈ db.documents, ¬ (r.id = docId ∧ r.userId = userId) →
        r ∈ (deleteDocumentDb docId userId db).1.documents)) := by
  constructor
  · intro hne
    unfold deleteDocumentDb
    rw [if_neg (fun hc => hne ((deleteDocumentDb_any_iff docId userId db).mp hc))]
  · intro hex
    have hc := (deleteDocumentDb_any_iff docId userId db).mpr hex
    unfold deleteDocumentDb
    rw [if_pos hc]
    dsimp only
    refine ⟨rfl, ?_, ?_, ?_, ?_, ?_⟩
    · rw [decide_eq_true_eq]
      obtain ⟨r0, hr0, hid, huid⟩ := hex
      have hlt : (db.documents.filter
          fun r => !(decide (r.id = docId) && decide (r.userId = userId))).length ≠
            db.documents.length := by
        intro heq
        have hall := (List.countP_eq_length).mp (by
          rw [← List.countP_eq_length_filter] at heq
          exact heq)
        have := hall r0 hr0
        simp [hid, huid] at this
      exact Nat.lt_of_le_of_ne (List.length_filter_le _ _) hlt
    · intro p hp
      simpa using (List.mem_filter.mp hp).2
    · intro r hr
      have h2 := (List.mem_filter.mp hr).2
      simp only [Bool.not_eq_eq_eq_not, Bool.not_true, Bool.and_eq_false_imp,
        decide_eq_true_eq, decide_eq_false_iff_not] at h2
      tauto
    · intro p hp hne
      exact List.mem_filter.mpr ⟨hp, by simp [hne]⟩
    · intro r hr hne
      refine List.mem_filter.mpr ⟨hr, ?_⟩
      simp only [Bool.not_eq_eq_eq_not, Bool.not_true, Bool.and_eq_false_imp,
        decide_eq_true_eq, decide_eq_false_iff_not]
      intro h1 h2
      exact hne ⟨h1, h2⟩

/-- Witness for C9 on a one-document database with two reminder rows. -/
theorem delete_document_dependency_order_witness :
    (deleteDocumentDb 5 9 ⟨[⟨5, 9⟩], [(5, 7), (6, 1)]⟩).2.2 =
      [DelOp.delReminders 5, DelOp.delDocument 5] :=
  ((delete_document_dependency_order 5 9 ⟨[⟨5, 9⟩], [(5, 7), (6, 1)]⟩).2 (by decide)).1

end DocumentBot
